import Mathlib

/-
Verification of the websocket relay server of the sonic contact-center
sample (src/server/src/server.ts together with its tool registry and
telephony integrations).  The definitions below are shallow embeddings of
the server's registry maps, its websocket handlers, the audio re-framer,
the tool dispatcher, the session reaper and the shutdown handler.  The
JavaScript Map objects are embedded as association lists with unique keys;
Map.get / Map.set / Map.delete become mapGet / mapSet / mapDelete.
-/

namespace SonicServer

/-! ## Association-list embedding of the JavaScript Map objects -/

/-- Map.get: first value stored under the key, if any. -/
def mapGet [DecidableEq κ] (k : κ) : List (κ × α) → Option α
  | [] => none
  | e :: rest => if e.1 = k then some e.2 else mapGet k rest

/-- Map.set: overwrite the entry in place (JS Maps keep the original
insertion position on overwrite) or append a fresh entry at the end. -/
def mapSet [DecidableEq κ] (k : κ) (v : α) : List (κ × α) → List (κ × α)
  | [] => [(k, v)]
  | e :: rest => if e.1 = k then (k, v) :: rest else e :: mapSet k v rest

/-- Map.delete: drop the entry stored under the key.  Keys of a JS Map are
unique, so removing every matching entry agrees with removing the one. -/
def mapDelete [DecidableEq κ] (k : κ) : List (κ × α) → List (κ × α)
  | [] => []
  | e :: rest => if e.1 = k then mapDelete k rest else e :: mapDelete k rest

/-! ## Audio re-framer (the audioOutput handler of
setUpEventHandlersForChannel).

The handler base64-decodes the payload into a byte buffer, views it as an
Int16Array (the view covers the first floor(length / 2) samples; a
trailing odd byte lies outside the view), and then walks the samples in
640-byte / 320-sample chunks, sending each chunk and stopping as soon as
fewer than 320 samples remain. -/

def CHUNK_SIZE_BYTES : Nat := 640

def SAMPLES_PER_CHUNK : Nat := CHUNK_SIZE_BYTES / 2

/-- Little-endian signed 16-bit decoding used by the Int16Array view. -/
def decodeInt16 (lo hi : Nat) : Int :=
  let u := lo % 256 + 256 * (hi % 256)
  if u < 32768 then (u : Int) else (u : Int) - 65536

/-- The Int16Array view over the decoded byte buffer: consecutive
little-endian pairs; a trailing odd byte is outside the view. -/
def toSamples : List Nat → List Int
  | lo :: hi :: rest => decodeInt16 lo hi :: toSamples rest
  | _ => []

/-- The slicing while-loop: while offset + 320 <= pcmSamples.length,
emit pcmSamples.slice(offset, offset + 320). -/
def sliceFrames (samples : List Int) : List (List Int) :=
  if h : SAMPLES_PER_CHUNK ≤ samples.length then
    samples.take SAMPLES_PER_CHUNK :: sliceFrames (samples.drop SAMPLES_PER_CHUNK)
  else []
termination_by samples.length
decreasing_by
  simp only [List.length_drop]
  have hs : SAMPLES_PER_CHUNK = 320 := rfl
  omega

/-- Frames produced by the audioOutput handler from a decoded byte
buffer. -/
def audioOutputFrames (bytes : List Nat) : List (List Int) :=
  sliceFrames (toSamples bytes)

/-- Ready states of a ws WebSocket. -/
inductive ReadyState
  | CONNECTING
  | OPEN
  | CLOSING
  | CLOSED
deriving DecidableEq, Repr

/-- A downstream client socket as the broadcast loops see it. -/
structure WsClient where
  id : Nat
  readyState : ReadyState
deriving DecidableEq, Repr

/-- The forEach loop of handleSessionEvent: send the wrapped event to
every client of the channel whose readyState is OPEN.  The result is the
list of socket ids that receive the message, in iteration order. -/
def sessionEventRecipients (clients : List WsClient) : List Nat :=
  clients.foldl
    (fun acc c => if c.readyState = ReadyState.OPEN then acc ++ [c.id] else acc) []

/-- The forEach loop of the streamComplete handler: identical guard. -/
def streamCompleteRecipients (clients : List WsClient) : List Nat :=
  clients.foldl
    (fun acc c => if c.readyState = ReadyState.OPEN then acc ++ [c.id] else acc) []

/-- The per-chunk forEach loop inside the audioOutput handler: identical
guard. -/
def audioChunkRecipients (clients : List WsClient) : List Nat :=
  clients.foldl
    (fun acc c => if c.readyState = ReadyState.OPEN then acc ++ [c.id] else acc) []

/-- The audioOutput handler end to end: every produced frame is offered to
the channel's clients; each pair records the frame and the ids that
receive it. -/
def audioOutputDeliveries (clients : List WsClient) (bytes : List Nat) :
    List (List Int × List Nat) :=
  (audioOutputFrames bytes).map (fun f => (f, audioChunkRecipients clients))

/-! ## The three registry maps of the connection handler.

channelStreams maps a channel id to its upstream Session (sessions are
embedded as numeric tokens handed out in creation order), channelClients
maps a channel id to the set of attached client sockets (socket handles
are embedded as numeric ids), and clientChannels is the back-reference
from a socket to its channel. -/

structure ServerMaps where
  channelStreams : List (String × Nat)
  channelClients : List (String × List Nat)
  clientChannels : List (Nat × String)
deriving DecidableEq, Repr

/-! ## handleMessage -/

inductive MsgAction
  | errorSent (message details : String)
  | adapterDispatch (channelId : String)
deriving DecidableEq, Repr

/-- The per-socket message handler: resolve the socket's channel and the
channel's session; on either miss, send a structured error and return;
otherwise hand the message to the transport adapters and the NovaSonic
control-message dispatcher (adapterDispatch). -/
def handleMessage (maps : ServerMaps) (ws : Nat) : ServerMaps × List MsgAction :=
  match mapGet ws maps.clientChannels with
  | none =>
    (maps, [MsgAction.errorSent "Channel not found" "No active channel for this connection"])
  | some channelId =>
    match mapGet channelId maps.channelStreams with
    | none =>
      (maps, [MsgAction.errorSent "Session not found" "No active session for this channel"])
    | some _ => (maps, [MsgAction.adapterDispatch channelId])

/-! ## handleClose -/

/-- Outcome of the Promise.race between the graceful teardown sequence
(endAudioContent, endPrompt, close) and the 3000 ms rejection timer;
both the timer firing and a throw from the sequence land in the same
catch block. -/
inductive CloseOutcome
  | success
  | timeoutOrError
deriving DecidableEq, Repr

inductive TeardownAction
  | gracefulRace (channelId : String) (timeoutMs : Nat)
  | forceClose (channelId : String) (closeThrew : Bool)
deriving DecidableEq, Repr

/-- Set.delete on the channel's client set. -/
def removeClient (ws : Nat) : List Nat → List Nat
  | [] => []
  | w :: rest => if w = ws then removeClient ws rest else w :: removeClient ws rest

/-- The close handler: deregister the socket; when the resulting client
set is empty, race the graceful teardown against the 3 s timer, falling
back to a forced close (whose own failure is caught too), and in every
such case delete the channel from both channelStreams and channelClients.
isActive embeds bedrockClient.isSessionActive (external client). -/
def handleClose (maps : ServerMaps) (isActive : String → Bool) (ws : Nat)
    (outcome : CloseOutcome) (forceCloseThrew : Bool) :
    ServerMaps × List TeardownAction :=
  match mapGet ws maps.clientChannels with
  | none => (maps, [])
  | some channelId =>
    match mapGet channelId maps.channelClients with
    | none => ({ maps with clientChannels := mapDelete ws maps.clientChannels }, [])
    | some clients =>
      let remaining := removeClient ws clients
      if remaining.length = 0 then
        let acts :=
          match mapGet channelId maps.channelStreams with
          | some _ =>
            if isActive channelId then
              match outcome with
              | CloseOutcome.success => [TeardownAction.gracefulRace channelId 3000]
              | CloseOutcome.timeoutOrError =>
                [TeardownAction.gracefulRace channelId 3000,
                  TeardownAction.forceClose channelId forceCloseThrew]
            else []
          | none => []
        ({ channelStreams := mapDelete channelId maps.channelStreams,
            channelClients := mapDelete channelId maps.channelClients,
            clientChannels := mapDelete ws maps.clientChannels }, acts)
      else
        ({ maps with
            channelClients := mapSet channelId remaining maps.channelClients,
            clientChannels := mapDelete ws maps.clientChannels }, [])

/-! ## SIGINT shutdown handler -/

structure ShutdownTrace where
  timerDelayMs : Nat
  timerExitCode : Nat
  closeSessionCalls : List String
  socketCloseCalls : List Nat
deriving DecidableEq, Repr

/-- The SIGINT handler: arm the 5000 ms force-exit timer (exit code 1),
then walk the channelStreams snapshot pushing one closeSession promise per
channel (all initiated before any is awaited) and closing every attached
socket whose ready state is OPEN. -/
def sigintShutdown (maps : ServerMaps) (readyOf : Nat → ReadyState) : ShutdownTrace :=
  maps.channelStreams.foldl
    (fun tr e =>
      let clients := (mapGet e.1 maps.channelClients).getD []
      { tr with
          closeSessionCalls := tr.closeSessionCalls ++ [e.1],
          socketCloseCalls :=
            tr.socketCloseCalls
              ++ clients.filter (fun w => decide (readyOf w = ReadyState.OPEN)) })
    { timerDelayMs := 5000, timerExitCode := 1,
      closeSessionCalls := [], socketCloseCalls := [] }

/-- Exit behaviour of the shutdown coordinator: when the awaited close
work finishes within the bound the timer is cleared and the process exits
0; otherwise the timer (or the catch block) exits 1 — the process exits
in every case. -/
def shutdownExitCode (completedWithinBound : Bool) : Nat :=
  if completedWithinBound then 0 else 1

/-! ## initializeOrJoinChannel, big-step form.

The create branch inserts into channelStreams and channelClients
synchronously, before the first awaited handshake step; a rejection of any
of the three setup calls lands in the catch block, which sends a
structured error and closes the socket but deletes nothing from the maps.
The three awaited setup steps are external; handshakeOk abstracts whether
they all resolve. -/

inductive InitAction
  | handshakeStarted (channelId : String)
  | sessionReadySent (ws : Nat) (channelId : String) (isNewChannel : Bool)
  | errorSent (ws : Nat) (message : String)
  | socketClosed (ws : Nat)
deriving DecidableEq, Repr

/-- clients.add(ws) followed by clientChannels.set(ws, channelId). -/
def attachClient (maps : ServerMaps) (ws : Nat) (channelId : String) : ServerMaps :=
  { maps with
      channelClients :=
        mapSet channelId ((mapGet channelId maps.channelClients).getD [] ++ [ws])
          maps.channelClients,
      clientChannels := mapSet ws channelId maps.clientChannels }

def initializeOrJoinChannel (maps : ServerMaps) (nextSession : Nat) (ws : Nat)
    (channelId : String) (handshakeOk : Bool) :
    ServerMaps × Nat × List InitAction :=
  match mapGet channelId maps.channelStreams with
  | some _ =>
    (attachClient maps ws channelId, nextSession,
      [InitAction.sessionReadySent ws channelId false])
  | none =>
    let maps1 :=
      { maps with
          channelStreams := mapSet channelId nextSession maps.channelStreams,
          channelClients := mapSet channelId [] maps.channelClients }
    if handshakeOk then
      (attachClient maps1 ws channelId, nextSession + 1,
        [InitAction.handshakeStarted channelId,
          InitAction.sessionReadySent ws channelId true])
    else
      (maps1, nextSession + 1,
        [InitAction.handshakeStarted channelId,
          InitAction.errorSent ws "Failed to initialize or join channel",
          InitAction.socketClosed ws])

/-! ## Tool registry -/

inductive ToolOutput
  | obj (payload : String)
  | empty
deriving DecidableEq, Repr

/-- A tool handler receives the tool-use content and the shared
messagesList and either returns a result object or throws. -/
abbrev ToolHandler := String → List String → Except String ToolOutput

/-- Ids of the tools declared in the XML passed to parseToolsFromXML. -/
def registeredToolIds : List String :=
  ["check_messages", "check_connection", "check_for_outage", "get_weather"]

/-- The execute method synthesized for each XML tool class: look the
registered function name up in the functions record; a missing function
yields the empty object, a found function runs (and may throw). -/
def toolClassExecute (functions : List (String × ToolHandler))
    (functionName : String) : ToolHandler :=
  fun content messagesList =>
    match mapGet functionName functions with
    | some f => f content messagesList
    | none => Except.ok ToolOutput.empty

/-- registerXMLTools: the registry maps each declared tool id to the
execute method of its synthesized class. -/
def buildToolRegistry (functions : List (String × ToolHandler)) :
    List (String × ToolHandler) :=
  registeredToolIds.map (fun i => (i, toolClassExecute functions i))

/-- ToolRegistry.execute: an unregistered tool name throws
"Tool ... not supported"; otherwise the handler runs with no surrounding
try/catch, so whatever it throws leaves execute. -/
def toolRegistryExecute (tools : List (String × ToolHandler))
    (toolName content : String) (messagesList : List String) :
    Except String ToolOutput :=
  match mapGet toolName tools with
  | none => Except.error ("Tool " ++ toolName ++ " not supported")
  | some handler => handler content messagesList

/-- The check_messages function: returns the queued messages. -/
def check_messages : ToolHandler :=
  fun _content messagesList =>
    Except.ok (ToolOutput.obj
      ("The following messages are for the assistant to pass on to the user: ["
        ++ String.intercalate "," messagesList ++ "]"))

/-- The get_weather function: fetches open-meteo and, on a fetch error,
logs and rethrows.  The network call is external; its outcome is a
parameter. -/
def get_weather (fetchOutcome : Except String String) : ToolHandler :=
  fun _content _messagesList =>
    match fetchOutcome with
    | Except.ok weatherData => Except.ok (ToolOutput.obj weatherData)
    | Except.error e => Except.error e

/-! ## Session reaper -/

/-- The bedrock client's session registry, keyed by session id (= channel
id), with each session's last-activity timestamp; closeThrows lists the
sessions whose forced close fails. -/
structure BedrockState where
  activeSessions : List (String × Nat)
  closeThrows : List String
deriving DecidableEq, Repr

/-- Modelled from the spec: NovaSonicBidirectionalStreamClient
(client.ts) is not among the sources; getActiveSessions lists the ids in
the client's session registry. -/
def getActiveSessions (bs : BedrockState) : List String :=
  bs.activeSessions.map Prod.fst

/-- Modelled from the spec: per-session last-activity timestamp. -/
def getLastActivityTime (bs : BedrockState) (sessionId : String) : Nat :=
  (mapGet sessionId bs.activeSessions).getD 0

/-- Modelled from the spec: close(graceful=false) removes the session
from the client's registry; a transport failure (membership in
closeThrows) raises instead. -/
def closeSession (bs : BedrockState) (sessionId : String) :
    Except String BedrockState :=
  if sessionId ∈ bs.closeThrows then
    Except.error ("Error force closing inactive session " ++ sessionId)
  else
    Except.ok { bs with activeSessions := mapDelete sessionId bs.activeSessions }

/-- Modelled from the spec: a session is active while it is in the
client's registry. -/
def isSessionActive (bs : BedrockState) (sessionId : String) : Bool :=
  (mapGet sessionId bs.activeSessions).isSome

def fiveMinsInMs : Nat := 5 * 60 * 1000

/-- Body of the reaper's forEach: an idle session is force-closed, and a
throwing close is caught and logged without stopping the pass. -/
def reapOne (now : Nat) (acc : BedrockState × List String) (sessionId : String) :
    BedrockState × List String :=
  if fiveMinsInMs < now - getLastActivityTime acc.1 sessionId then
    match closeSession acc.1 sessionId with
    | Except.ok bs => (bs, acc.2)
    | Except.error e => (acc.1, acc.2 ++ [e])
  else acc

/-- One tick of the 60 s setInterval: iterate the snapshot of active
session ids, reaping each idle one. -/
def reaperTick (now : Nat) (bs : BedrockState) : BedrockState × List String :=
  (getActiveSessions bs).foldl (reapOne now) (bs, [])

def reaperIntervalMs : Nat := 60000

/-- GET /channels: one row per entry of channelClients, with the client
count and the bedrock client's active flag. -/
def channelsSnapshot (channelClients : List (String × List Nat)) (bs : BedrockState) :
    List (String × Nat × Bool) :=
  channelClients.map (fun e => (e.1, e.2.length, isSessionActive bs e.1))

/-! ## triggerSonic (proactive audio injection) -/

def hardcodedSessionId : String := "a8c43fa3-cb29-4625-9fad-7a5589b19ca6"

def sonicChunkSize : Nat := 1024

/-- The chunking loop of triggerSonic: for (i = 0; i < length; i += 1024)
slice(i, min(i + 1024, length)) — the short last chunk is kept, not
dropped. -/
def sonicChunks : List Nat → List (List Nat)
  | [] => []
  | b :: rest =>
    (b :: rest).take sonicChunkSize :: sonicChunks ((b :: rest).drop sonicChunkSize)
termination_by l => l.length
decreasing_by
  simp only [List.length_drop, List.length_cons]
  have hcs : sonicChunkSize = 1024 := rfl
  omega

structure SonicTrace where
  contentNameUsed : Option String
  startWindowOpened : Bool
  chunkSizes : List Nat
  windowClosedAfterMs : Nat
deriving DecidableEq, Repr

/-- triggerSonic: synthesize the message (external; the synthesized bytes
are a parameter), look the content name up under the HARDCODED session id
— not the invoking channel's session —, open an audio-content window,
stream the 1024-byte chunks, and close the window on a 1000 ms timer. -/
def triggerSonic (contentNames : List (String × String)) (audioData : List Nat) :
    SonicTrace :=
  { contentNameUsed := mapGet hardcodedSessionId contentNames,
    startWindowOpened := true,
    chunkSizes := (sonicChunks audioData).map List.length,
    windowClosedAfterMs := 1000 }

/-! ## Interleaved joins (claim C1).

initializeOrJoinChannel runs synchronously from its entry to the first
awaited handshake step: the has-check, createStreamSession, the insertion
into channelStreams and channelClients, and setUpEventHandlersForChannel
happen in one event-loop slice.  Each of the three awaited setup calls is
a suspension point at which other joiners may run.  A joiner that finds
the channel already present attaches and sends sessionReady without any
suspension.  The model below makes every suspension point a scheduler
step; the handshake steps are assumed to resolve (rejection is the
subject of claim C3). -/

inductive JoinPhase
  | start
  | awaitPromptStart
  | awaitSystemPrompt
  | awaitStartAudio
  | done
deriving DecidableEq, Repr

structure JoinTask where
  channelId : String
  phase : JoinPhase
deriving DecidableEq, Repr

structure JoinState where
  maps : ServerMaps
  nextSession : Nat
  handshakesStarted : Nat
  sessionReadySent : List (Nat × String)
deriving DecidableEq, Repr

structure JoinExec where
  st : JoinState
  tasks : List JoinTask
deriving DecidableEq, Repr

def nth : List α → Nat → Option α
  | [], _ => none
  | a :: _, 0 => some a
  | _ :: l, n + 1 => nth l n

def updateNth : List α → Nat → α → List α
  | [], _, _ => []
  | _ :: l, 0, b => b :: l
  | a :: l, n + 1, b => a :: updateNth l n b

/-- clients.add, clientChannels.set and the sessionReady send of
initializeOrJoinChannel. -/
def attachAndNotify (st : JoinState) (i : Nat) (channelId : String) : JoinState :=
  { st with
      maps := attachClient st.maps i channelId,
      sessionReadySent := st.sessionReadySent ++ [(i, channelId)] }

/-- One scheduler step of joiner i. -/
def stepTask (e : JoinExec) (i : Nat) : JoinExec :=
  match nth e.tasks i with
  | none => e
  | some t =>
    match t.phase with
    | JoinPhase.done => e
    | JoinPhase.start =>
      match mapGet t.channelId e.st.maps.channelStreams with
      | some _ =>
        { st := attachAndNotify e.st i t.channelId,
          tasks := updateNth e.tasks i { t with phase := JoinPhase.done } }
      | none =>
        { st :=
            { maps :=
                { e.st.maps with
                    channelStreams :=
                      mapSet t.channelId e.st.nextSession e.st.maps.channelStreams,
                    channelClients := mapSet t.channelId [] e.st.maps.channelClients },
              nextSession := e.st.nextSession + 1,
              handshakesStarted := e.st.handshakesStarted + 1,
              sessionReadySent := e.st.sessionReadySent },
          tasks := updateNth e.tasks i { t with phase := JoinPhase.awaitPromptStart } }
    | JoinPhase.awaitPromptStart =>
      { st := e.st,
        tasks := updateNth e.tasks i { t with phase := JoinPhase.awaitSystemPrompt } }
    | JoinPhase.awaitSystemPrompt =>
      { st := e.st,
        tasks := updateNth e.tasks i { t with phase := JoinPhase.awaitStartAudio } }
    | JoinPhase.awaitStartAudio =>
      { st := attachAndNotify e.st i t.channelId,
        tasks := updateNth e.tasks i { t with phase := JoinPhase.done } }

def runSchedule (schedule : List Nat) (e : JoinExec) : JoinExec :=
  schedule.foldl stepTask e

/-- n joiners all requesting the same channel id c, starting from empty
registries. -/
def initJoinExec (c : String) (n : Nat) : JoinExec :=
  { st :=
      { maps := { channelStreams := [], channelClients := [], clientChannels := [] },
        nextSession := 0, handshakesStarted := 0, sessionReadySent := [] },
    tasks := List.replicate n { channelId := c, phase := JoinPhase.start } }

/-- A concrete registry state: channel xyz with session 0 and the single
attached client socket 4. -/
def xyzMaps : ServerMaps :=
  { channelStreams := [("xyz", 0)], channelClients := [("xyz", [4])],
    clientChannels := [(4, "xyz")] }

/-- Number of joiners that have completed. -/
def countDone (ts : List JoinTask) : Nat :=
  (ts.filter (fun t => decide (t.phase = JoinPhase.done))).length

/-- No joiner has run its first event-loop slice yet: all registries
empty, no handshake started. -/
abbrev JoinFresh (e : JoinExec) : Prop :=
  e.st.maps.channelStreams = [] ∧ e.st.maps.channelClients = []
    ∧ e.st.nextSession = 0 ∧ e.st.handshakesStarted = 0
    ∧ e.st.sessionReadySent = []
    ∧ ∀ t ∈ e.tasks, t.phase = JoinPhase.start

/-- The check-and-set slice has run exactly once: a single channelStreams
entry holding session 0, exactly one handshake started, every finished
joiner in the channel's client set, one sessionReady per finished joiner,
all naming channel c. -/
abbrev JoinReady (c : String) (e : JoinExec) : Prop :=
  e.st.maps.channelStreams = [(c, 0)] ∧ e.st.nextSession = 1
    ∧ e.st.handshakesStarted = 1
    ∧ (∃ att, e.st.maps.channelClients = [(c, att)]
        ∧ ∀ i t, nth e.tasks i = some t → t.phase = JoinPhase.done → i ∈ att)
    ∧ e.st.sessionReadySent.length = countDone e.tasks
    ∧ ∀ p ∈ e.st.sessionReadySent, p.2 = c

/-- Invariant of the interleaved-join execution. -/
abbrev JoinInv (c : String) (n : Nat) (e : JoinExec) : Prop :=
  e.tasks.length = n ∧ (∀ t ∈ e.tasks, t.channelId = c)
    ∧ (JoinFresh e ∨ JoinReady c e)

end SonicServer

/-! # Theorems -/

namespace SonicServer

/-! ## Helper lemmas about the map embedding -/

theorem mapGet_mapDelete_self [DecidableEq κ] (k : κ) (m : List (κ × α)) :
    mapGet k (mapDelete k m) = none := by
  induction m with
  | nil => rfl
  | cons e rest ih =>
    by_cases h : e.1 = k
    · simp [mapDelete, h, ih]
    · simp [mapDelete, mapGet, h, ih]

theorem mapDelete_of_mapGet_none [DecidableEq κ] (k : κ) (m : List (κ × α))
    (h : mapGet k m = none) : mapDelete k m = m := by
  induction m with
  | nil => rfl
  | cons e rest ih =>
    by_cases he : e.1 = k
    · simp [mapGet, he] at h
    · simp [mapGet, he] at h
      simp [mapDelete, he, ih h]

theorem mapDelete_eq_filter [DecidableEq κ] (k : κ) (m : List (κ × α)) :
    mapDelete k m = m.filter (fun e => decide (e.1 ≠ k)) := by
  induction m with
  | nil => rfl
  | cons e rest ih =>
    by_cases he : e.1 = k
    · simp [mapDelete, he, List.filter, ih]
    · simp [mapDelete, he, List.filter, ih]

theorem mapGet_of_mem_of_nodup [DecidableEq κ] {m : List (κ × α)} {k : κ} {v : α}
    (hnd : (m.map Prod.fst).Nodup) (hm : (k, v) ∈ m) : mapGet k m = some v := by
  induction m with
  | nil => cases hm
  | cons e rest ih =>
    simp only [List.map_cons, List.nodup_cons] at hnd
    rcases List.mem_cons.mp hm with h | h
    · subst h; simp [mapGet]
    · have hk : e.1 ≠ k := by
        intro hek
        exact hnd.1 (hek ▸ (List.mem_map.mpr ⟨(k, v), h, rfl⟩))
      simp [mapGet, hk, ih hnd.2 h]

theorem mapGet_none_iff [DecidableEq κ] {m : List (κ × α)} {k : κ} :
    mapGet k m = none ↔ ∀ e ∈ m, e.1 ≠ k := by
  induction m with
  | nil => simp [mapGet]
  | cons e rest ih =>
    by_cases he : e.1 = k
    · simp [mapGet, he]
    · simp [mapGet, he, ih]

/-! ## Re-framer lemmas -/

theorem toSamples_length (bytes : List Nat) :
    (toSamples bytes).length = bytes.length / 2 := by
  induction bytes using toSamples.induct with
  | case1 lo hi rest ih =>
    simp only [toSamples, List.length_cons]
    omega
  | case2 l h1 =>
    cases l with
    | nil => simp [toSamples]
    | cons a l' =>
      cases l' with
      | nil => simp [toSamples]
      | cons b l'' => exact absurd rfl (h1 a b l'')

theorem sliceFrames_length (samples : List Int) :
    (sliceFrames samples).length = samples.length / SAMPLES_PER_CHUNK := by
  induction samples using sliceFrames.induct with
  | case1 s h ih =>
    have h' : 320 ≤ s.length := h
    rw [sliceFrames, dif_pos h]
    have hs : SAMPLES_PER_CHUNK = 320 := rfl
    simp only [List.length_cons, List.length_drop, hs] at ih ⊢
    rw [ih]
    omega
  | case2 s h =>
    have h' : ¬ 320 ≤ s.length := h
    rw [sliceFrames, dif_neg h]
    have hs : SAMPLES_PER_CHUNK = 320 := rfl
    simp only [List.length_nil, hs]
    omega

theorem sliceFrames_sizes (samples : List Int) :
    ∀ f ∈ sliceFrames samples, f.length = SAMPLES_PER_CHUNK := by
  induction samples using sliceFrames.induct with
  | case1 s h ih =>
    rw [sliceFrames, dif_pos h]
    intro f hf
    rcases List.mem_cons.mp hf with hf | hf
    · subst hf
      simp [List.length_take, Nat.min_eq_left h]
    · exact ih f hf
  | case2 s h =>
    rw [sliceFrames, dif_neg h]
    intro f hf
    cases hf

theorem sliceFrames_flatten (samples : List Int) :
    (sliceFrames samples).flatten
      = samples.take (SAMPLES_PER_CHUNK * (samples.length / SAMPLES_PER_CHUNK)) := by
  induction samples using sliceFrames.induct with
  | case1 s h ih =>
    have h' : 320 ≤ s.length := h
    have hs : SAMPLES_PER_CHUNK = 320 := rfl
    rw [sliceFrames, dif_pos h, List.flatten_cons, ih]
    simp only [List.length_drop, hs]
    have hlen : s.length / 320 = (s.length - 320) / 320 + 1 := by omega
    rw [hlen, Nat.mul_add, Nat.mul_one, Nat.add_comm (320 * _) 320, List.take_add]
  | case2 s h =>
    have h' : ¬ 320 ≤ s.length := h
    have hs : SAMPLES_PER_CHUNK = 320 := rfl
    rw [sliceFrames, dif_neg h]
    have hz : s.length / SAMPLES_PER_CHUNK = 0 := by
      rw [hs]; omega
    simp [hz]

/-- Claim C2: for every upstream audioOutput payload of arbitrary byte
length, the re-framer forwards exactly floor(length / 640) consecutive
640-byte (320-sample) frames in arrival order (their concatenation is the
sample prefix of the payload) and drops any trailing remainder under 640
bytes without padding; every frame is offered to the channel's client
set; in particular a 2000-byte block yields exactly three frames and
discards an 80-byte remainder. -/
theorem claim_C2_audio_reframing (bytes : List Nat) (clients : List WsClient) :
    ((audioOutputFrames bytes).length = bytes.length / 640
      ∧ (∀ f ∈ audioOutputFrames bytes, f.length = 320)
      ∧ (audioOutputFrames bytes).flatten
          = (toSamples bytes).take (320 * (bytes.length / 640))
      ∧ audioOutputDeliveries clients bytes
          = (audioOutputFrames bytes).map (fun f => (f, audioChunkRecipients clients)))
    ∧ (bytes.length = 2000 →
        (audioOutputFrames bytes).length = 3
          ∧ bytes.length - 640 * (audioOutputFrames bytes).length = 80) := by
  have hs : SAMPLES_PER_CHUNK = 320 := rfl
  have hlen : (audioOutputFrames bytes).length = bytes.length / 640 := by
    rw [audioOutputFrames, sliceFrames_length, toSamples_length, hs,
      Nat.div_div_eq_div_mul]
  refine ⟨⟨hlen, ?_, ?_, rfl⟩, ?_⟩
  · intro f hf
    have hsz := sliceFrames_sizes (toSamples bytes) f hf
    rwa [hs] at hsz
  · rw [audioOutputFrames, sliceFrames_flatten, hs, toSamples_length,
      Nat.div_div_eq_div_mul]
  · intro h2000
    rw [hlen, h2000]
    omega

/-- Witness for claim C2: the 2000-byte scenario evaluated on a concrete
payload. -/
theorem claim_C2_witness :
    (audioOutputFrames (List.replicate 2000 0)).length = 3
      ∧ (List.replicate 2000 0).length
          - 640 * (audioOutputFrames (List.replicate 2000 0)).length = 80 :=
  (claim_C2_audio_reframing (List.replicate 2000 0) []).2 (by rw [List.length_replicate])

/-! ## Broadcast loops -/

theorem openFoldRecipients (cs : List WsClient) (acc : List Nat) :
    cs.foldl
        (fun acc c => if c.readyState = ReadyState.OPEN then acc ++ [c.id] else acc) acc
      = acc
        ++ (cs.filter (fun c => decide (c.readyState = ReadyState.OPEN))).map WsClient.id := by
  induction cs generalizing acc with
  | nil => simp
  | cons c rest ih =>
    by_cases h : c.readyState = ReadyState.OPEN
    · simp [List.foldl_cons, List.filter_cons, h, ih]
    · simp [List.foldl_cons, List.filter_cons, h, ih]

/-- Claim C9: every fan-out delivery path (named-event broadcast,
streamComplete notification, audio frame broadcast) sends only to sockets
whose ready state is OPEN at delivery time; a socket in any other state is
skipped and the broadcast continues for the remaining sockets. -/
theorem claim_C9_open_only_broadcast (clients : List WsClient) :
    (sessionEventRecipients clients
        = (clients.filter (fun c => decide (c.readyState = ReadyState.OPEN))).map WsClient.id)
    ∧ streamCompleteRecipients clients = sessionEventRecipients clients
    ∧ audioChunkRecipients clients = sessionEventRecipients clients
    ∧ (∀ pre c post, c.readyState ≠ ReadyState.OPEN →
        sessionEventRecipients (pre ++ c :: post) = sessionEventRecipients (pre ++ post)
          ∧ streamCompleteRecipients (pre ++ c :: post)
              = streamCompleteRecipients (pre ++ post)
          ∧ audioChunkRecipients (pre ++ c :: post)
              = audioChunkRecipients (pre ++ post)) := by
  refine ⟨openFoldRecipients clients [], rfl, rfl, ?_⟩
  intro pre c post hc
  have hskip :
      sessionEventRecipients (pre ++ c :: post) = sessionEventRecipients (pre ++ post) := by
    rw [sessionEventRecipients, sessionEventRecipients,
      openFoldRecipients, openFoldRecipients]
    simp [List.filter_append, List.filter_cons, hc]
  exact ⟨hskip, hskip, hskip⟩

/-- Witness for claim C9: a closed socket in the middle of the client set
is skipped and does not disturb delivery to the others. -/
theorem claim_C9_witness :
    sessionEventRecipients
        ([WsClient.mk 1 ReadyState.OPEN]
          ++ WsClient.mk 2 ReadyState.CLOSED :: [WsClient.mk 3 ReadyState.OPEN])
      = sessionEventRecipients
          ([WsClient.mk 1 ReadyState.OPEN] ++ [WsClient.mk 3 ReadyState.OPEN]) :=
  ((claim_C9_open_only_broadcast []).2.2.2 [WsClient.mk 1 ReadyState.OPEN]
    (WsClient.mk 2 ReadyState.CLOSED) [WsClient.mk 3 ReadyState.OPEN] (by decide)).1

/-! ## handleMessage -/

/-- Claim C10: an inbound message on a socket with no registered channel,
or whose channel has no session, produces exactly one structured error
event on that socket, invokes no adapter or upstream operation, and
leaves the registry maps unchanged. -/
theorem claim_C10_unbound_socket_message (maps : ServerMaps) (ws : Nat) :
    (mapGet ws maps.clientChannels = none →
      handleMessage maps ws
        = (maps, [MsgAction.errorSent "Channel not found"
            "No active channel for this connection"]))
    ∧ (∀ channelId, mapGet ws maps.clientChannels = some channelId →
        mapGet channelId maps.channelStreams = none →
        handleMessage maps ws
          = (maps, [MsgAction.errorSent "Session not found"
              "No active session for this channel"])) := by
  constructor
  · intro h
    simp [handleMessage, h]
  · intro channelId h1 h2
    simp [handleMessage, h1, h2]

/-- Witness for claim C10: both misses on concrete registries. -/
theorem claim_C10_witness :
    handleMessage { channelStreams := [], channelClients := [], clientChannels := [] } 5
        = ({ channelStreams := [], channelClients := [], clientChannels := [] },
            [MsgAction.errorSent "Channel not found" "No active channel for this connection"])
      ∧ handleMessage
            { channelStreams := [], channelClients := [("c", [5])], clientChannels := [(5, "c")] } 5
          = ({ channelStreams := [], channelClients := [("c", [5])], clientChannels := [(5, "c")] },
            [MsgAction.errorSent "Session not found" "No active session for this channel"]) :=
  ⟨(claim_C10_unbound_socket_message _ 5).1 rfl,
    (claim_C10_unbound_socket_message _ 5).2 "c" rfl rfl⟩

/-! ## handleClose -/

/-- Claim C6: when the last client of a channel disconnects, the handler
races graceful teardown against a 3000 ms timeout; on timeout or throw it
falls back to a forced close (whose own failure is also caught); in every
case the channel is removed from the stream registry and the client-set
registry, and the socket from clientChannels. -/
theorem claim_C6_last_client_teardown (maps : ServerMaps) (isActive : String → Bool)
    (ws : Nat) (outcome : CloseOutcome) (forceCloseThrew : Bool) (channelId : String)
    (clients : List Nat)
    (h1 : mapGet ws maps.clientChannels = some channelId)
    (h2 : mapGet channelId maps.channelClients = some clients)
    (h3 : removeClient ws clients = []) :
    mapGet channelId (handleClose maps isActive ws outcome forceCloseThrew).1.channelStreams
        = none
      ∧ mapGet channelId
            (handleClose maps isActive ws outcome forceCloseThrew).1.channelClients = none
      ∧ mapGet ws
            (handleClose maps isActive ws outcome forceCloseThrew).1.clientChannels = none
      ∧ (∀ s, mapGet channelId maps.channelStreams = some s → isActive channelId = true →
          TeardownAction.gracefulRace channelId 3000
              ∈ (handleClose maps isActive ws outcome forceCloseThrew).2
            ∧ (outcome = CloseOutcome.timeoutOrError →
                TeardownAction.forceClose channelId forceCloseThrew
                  ∈ (handleClose maps isActive ws outcome forceCloseThrew).2)) := by
  cases hcs : mapGet channelId maps.channelStreams with
  | none =>
    refine ⟨?_, ?_, ?_, ?_⟩ <;>
      simp [handleClose, h1, h2, h3, hcs, mapGet_mapDelete_self]
  | some s =>
    cases hact : isActive channelId with
    | false =>
      refine ⟨?_, ?_, ?_, ?_⟩ <;>
        simp [handleClose, h1, h2, h3, hcs, hact, mapGet_mapDelete_self]
    | true =>
      cases outcome with
      | success =>
        refine ⟨?_, ?_, ?_, ?_⟩ <;>
          simp [handleClose, h1, h2, h3, hcs, hact, mapGet_mapDelete_self]
      | timeoutOrError =>
        refine ⟨?_, ?_, ?_, ?_⟩ <;>
          simp [handleClose, h1, h2, h3, hcs, hact, mapGet_mapDelete_self]

/-- Witness for claim C6: the last client of channel xyz disconnects, the
graceful race times out, and the channel is force-closed and removed. -/
theorem claim_C6_witness :
    mapGet "xyz"
        (handleClose xyzMaps (fun _ => true) 4
          CloseOutcome.timeoutOrError false).1.channelStreams = none
      ∧ mapGet "xyz"
          (handleClose xyzMaps (fun _ => true) 4
            CloseOutcome.timeoutOrError false).1.channelClients = none
      ∧ mapGet 4
          (handleClose xyzMaps (fun _ => true) 4
            CloseOutcome.timeoutOrError false).1.clientChannels = none
      ∧ (∀ s, mapGet "xyz" xyzMaps.channelStreams = some s →
          (fun (_ : String) => true) "xyz" = true →
          TeardownAction.gracefulRace "xyz" 3000
              ∈ (handleClose xyzMaps (fun _ => true) 4
                  CloseOutcome.timeoutOrError false).2
            ∧ (CloseOutcome.timeoutOrError = CloseOutcome.timeoutOrError →
                TeardownAction.forceClose "xyz" false
                  ∈ (handleClose xyzMaps (fun _ => true) 4
                      CloseOutcome.timeoutOrError false).2)) :=
  claim_C6_last_client_teardown xyzMaps
    (fun _ => true) 4 CloseOutcome.timeoutOrError false "xyz" [4] rfl rfl rfl

/-! ## SIGINT shutdown -/

theorem sigintShutdown_foldl (cc : List (String × List Nat)) (readyOf : Nat → ReadyState)
    (l : List (String × Nat)) (tr : ShutdownTrace) :
    l.foldl
        (fun tr e =>
          let clients := (mapGet e.1 cc).getD []
          { tr with
              closeSessionCalls := tr.closeSessionCalls ++ [e.1],
              socketCloseCalls :=
                tr.socketCloseCalls
                  ++ clients.filter (fun w => decide (readyOf w = ReadyState.OPEN)) }) tr
      = { timerDelayMs := tr.timerDelayMs, timerExitCode := tr.timerExitCode,
          closeSessionCalls := tr.closeSessionCalls ++ l.map Prod.fst,
          socketCloseCalls :=
            tr.socketCloseCalls
              ++ (l.map (fun e =>
                    ((mapGet e.1 cc).getD []).filter
                      (fun w => decide (readyOf w = ReadyState.OPEN)))).flatten } := by
  induction l generalizing tr with
  | nil => simp
  | cons e rest ih =>
    simp only [List.foldl_cons, ih, List.map_cons, List.flatten_cons]
    simp [List.append_assoc]

/-- Claim C7: the SIGINT handler snapshots all channel ids, initiates a
close for each of their sessions (all pushed before any is awaited),
closes every attached client socket whose state is OPEN, and bounds the
wait with a 5000 ms force-exit timer; whether or not the close work
finishes within the bound, the process exits (0 on completion, 1 on bound
expiry or error). -/
theorem claim_C7_shutdown_coordinator (maps : ServerMaps) (readyOf : Nat → ReadyState) :
    (sigintShutdown maps readyOf).closeSessionCalls = maps.channelStreams.map Prod.fst
      ∧ (sigintShutdown maps readyOf).socketCloseCalls
          = (maps.channelStreams.map (fun e =>
              ((mapGet e.1 maps.channelClients).getD []).filter
                (fun w => decide (readyOf w = ReadyState.OPEN)))).flatten
      ∧ (sigintShutdown maps readyOf).timerDelayMs = 5000
      ∧ (sigintShutdown maps readyOf).timerExitCode = 1
      ∧ shutdownExitCode true = 0
      ∧ shutdownExitCode false = 1 := by
  have h := sigintShutdown_foldl maps.channelClients readyOf maps.channelStreams
    { timerDelayMs := 5000, timerExitCode := 1,
      closeSessionCalls := [], socketCloseCalls := [] }
  refine ⟨?_, ?_, ?_, ?_, rfl, rfl⟩ <;>
    simp [sigintShutdown, h]

/-! ## Handshake failure (claim C3) -/

/-- Claim C3 (code bug): when a handshake step is rejected during channel
creation, the joining socket does get a structured error and is closed —
but the channel remains registered in channelStreams, so a later joiner
for the same id finds it and attaches to the dead channel, contrary to
the claim. -/
theorem claim_C3_failed_handshake_leaves_channel_joinable :
    (InitAction.errorSent 7 "Failed to initialize or join channel"
          ∈ (initializeOrJoinChannel
              { channelStreams := [], channelClients := [], clientChannels := [] }
              0 7 "abc" false).2.2
        ∧ InitAction.socketClosed 7
            ∈ (initializeOrJoinChannel
                { channelStreams := [], channelClients := [], clientChannels := [] }
                0 7 "abc" false).2.2)
      ∧ mapGet "abc"
            (initializeOrJoinChannel
              { channelStreams := [], channelClients := [], clientChannels := [] }
              0 7 "abc" false).1.channelStreams = some 0
      ∧ (initializeOrJoinChannel
            (initializeOrJoinChannel
              { channelStreams := [], channelClients := [], clientChannels := [] }
              0 7 "abc" false).1
            1 8 "abc" true).2.2
          = [InitAction.sessionReadySent 8 "abc" false]
      ∧ mapGet "abc"
            (initializeOrJoinChannel
              (initializeOrJoinChannel
                { channelStreams := [], channelClients := [], clientChannels := [] }
                0 7 "abc" false).1
              1 8 "abc" true).1.channelClients = some [8] := by
  decide

/-! ## Tool dispatch (claim C4) -/

/-- Claim C4 counterexample: with the registered tools, a throwing
handler's exception leaves ToolRegistry.execute unconverted, and an
unregistered tool name throws "Tool ... not supported" — neither is
turned into a benign or empty tool result at the dispatch boundary. -/
theorem claim_C4_counterexample :
    toolRegistryExecute
        (buildToolRegistry
          [("check_messages", check_messages),
            ("get_weather", get_weather (Except.error "fetch failed"))])
        "get_weather" "" [] = Except.error "fetch failed"
      ∧ toolRegistryExecute
          (buildToolRegistry
            [("check_messages", check_messages),
              ("get_weather", get_weather (Except.error "fetch failed"))])
          "frobnicate" "" []
          = Except.error "Tool frobnicate not supported" :=
  ⟨rfl, rfl⟩

/-- Claim C4 (amended): ToolRegistry.execute catches nothing — an
unregistered tool name raises "Tool ... not supported" and a handler
exception propagates out of the dispatch call; only the synthesized class
wrapper substitutes the empty object, and only when the tool's registered
function name is absent from the functions record. -/
theorem claim_C4_amended_dispatch (tools functions : List (String × ToolHandler))
    (toolName content : String) (messagesList : List String) :
    (mapGet toolName tools = none →
      toolRegistryExecute tools toolName content messagesList
        = Except.error ("Tool " ++ toolName ++ " not supported"))
    ∧ (∀ handler, mapGet toolName tools = some handler →
        toolRegistryExecute tools toolName content messagesList
          = handler content messagesList)
    ∧ (mapGet toolName functions = none →
        toolClassExecute functions toolName content messagesList
          = Except.ok ToolOutput.empty) := by
  refine ⟨fun h => ?_, fun handler h => ?_, fun h => ?_⟩ <;>
    simp [toolRegistryExecute, toolClassExecute, h]

/-- Witness for the amended claim C4. -/
theorem claim_C4_witness :
    toolRegistryExecute [] "x" "" [] = Except.error ("Tool " ++ "x" ++ " not supported") :=
  (claim_C4_amended_dispatch [] [] "x" "" []).1 rfl

/-! ## Proactive injection (claim C8) -/

theorem sonicChunks_eq_single (l : List Nat) (hne : l ≠ [])
    (hle : l.length ≤ sonicChunkSize) : sonicChunks l = [l] := by
  match l, hne with
  | b :: rest, _ =>
    rw [sonicChunks, List.take_of_length_le hle, List.drop_eq_nil_of_le hle]
    rw [sonicChunks]

theorem audioOutputFrames_seven_hundred :
    (audioOutputFrames (List.replicate 700 (0 : Nat))).map List.length = [320] := by
  have h1 : (audioOutputFrames (List.replicate 700 (0 : Nat))).length = 1 := by
    rw [audioOutputFrames, sliceFrames_length, toSamples_length, List.length_replicate]
    rfl
  obtain ⟨f, hf⟩ := List.length_eq_one.mp h1
  have hsz : f.length = SAMPLES_PER_CHUNK := by
    refine sliceFrames_sizes (toSamples (List.replicate 700 (0 : Nat))) f ?_
    rw [← audioOutputFrames, hf]
    exact List.mem_singleton.mpr rfl
  rw [hf, List.map_singleton, hsz]
  rfl

/-- Claim C8 (code bug): triggerSonic looks the content name up under the
hardcoded session id instead of the invoking channel's own session, and
slices the synthesized audio into 1024-byte chunks keeping the short
remainder, instead of the 640-byte drop-remainder framing rule used by
the audioOutput re-framer (shown on the same 700-byte audio). -/
theorem claim_C8_hardcoded_injection :
    (triggerSonic [("mychannel", "content-A"), (hardcodedSessionId, "content-B")]
          (List.replicate 700 0)).contentNameUsed = some "content-B"
      ∧ (triggerSonic [("mychannel", "content-A"), (hardcodedSessionId, "content-B")]
            (List.replicate 700 0)).contentNameUsed ≠ some "content-A"
      ∧ (triggerSonic [("mychannel", "content-A"), (hardcodedSessionId, "content-B")]
            (List.replicate 700 0)).chunkSizes = [700]
      ∧ (audioOutputFrames (List.replicate 700 0)).map List.length = [320] := by
  have hchunks : sonicChunks (List.replicate 700 (0 : Nat)) = [List.replicate 700 0] := by
    refine sonicChunks_eq_single _ ?_ ?_
    · intro hcon
      have hl := congrArg List.length hcon
      rw [List.length_replicate, List.length_nil] at hl
      exact Nat.succ_ne_zero 699 hl
    · rw [List.length_replicate]
      decide
  refine ⟨rfl, by decide, ?_, audioOutputFrames_seven_hundred⟩
  show (sonicChunks (List.replicate 700 0)).map List.length = [700]
  rw [hchunks, List.map_singleton, List.length_replicate]

/-! ## Session reaper (claim C5) -/

/-- Claim C5 counterexample: the idle session abc IS removed from the
bedrock client's registry by the tick, yet its channel still appears in
the /channels snapshot afterwards (with active = false), because the
reaper never touches channelClients. -/
theorem claim_C5_counterexample :
    (reaperTick 300001 { activeSessions := [("abc", 0)], closeThrows := [] }).1.activeSessions
        = []
      ∧ isSessionActive
            (reaperTick 300001 { activeSessions := [("abc", 0)], closeThrows := [] }).1
            "abc" = false
      ∧ (channelsSnapshot [("abc", [7])]
            (reaperTick 300001 { activeSessions := [("abc", 0)], closeThrows := [] }).1).map
            Prod.fst = ["abc"] := by
  decide

theorem reapOne_foldl (now : Nat) (ct : List String) :
    ∀ (ks : List String) (m : List (String × Nat)) (log : List String),
      ks.Nodup → (m.map Prod.fst).Nodup →
      (ks.foldl (reapOne now) ({ activeSessions := m, closeThrows := ct }, log)).1
        = { activeSessions :=
              m.filter (fun e =>
                !(decide (e.1 ∈ ks) && decide (fiveMinsInMs < now - e.2)
                  && !(decide (e.1 ∈ ct)))),
            closeThrows := ct } := by
  intro ks
  induction ks with
  | nil =>
    intro m log _ _
    simp only [List.foldl_nil]
    congr 1
    refine (List.filter_eq_self.mpr ?_).symm
    intro e _
    simp
  | cons k ks ih =>
    intro m log hks hm
    have hksn : ks.Nodup := (List.nodup_cons.mp hks).2
    have hknotin : k ∉ ks := (List.nodup_cons.mp hks).1
    rw [List.foldl_cons]
    cases hk : mapGet k m with
    | none =>
      have hkeys : ∀ e ∈ m, e.1 ≠ k := mapGet_none_iff.mp hk
      have hr1 : (reapOne now ({ activeSessions := m, closeThrows := ct }, log) k).1
          = { activeSessions := m, closeThrows := ct } := by
        simp only [reapOne, getLastActivityTime, closeSession, hk, Option.getD_none]
        by_cases hidle : fiveMinsInMs < now - 0
        · rw [if_pos hidle]
          by_cases hct : k ∈ ct
          · rw [if_pos hct]
          · rw [if_neg hct]
            simp [mapDelete_of_mapGet_none k m hk]
        · rw [if_neg hidle]
      rcases hre : reapOne now ({ activeSessions := m, closeThrows := ct }, log) k
        with ⟨bs1, log1⟩
      have hbs1 : bs1 = { activeSessions := m, closeThrows := ct } := by
        rw [← hr1, hre]
      rw [hbs1, ih m log1 hksn hm]
      congr 1
      refine List.filter_congr ?_
      intro e he
      have hek : e.1 ≠ k := hkeys e he
      simp [List.mem_cons, hek]
    | some v =>
      have hval : ∀ e ∈ m, e.1 = k → e.2 = v := by
        intro e he hek
        have hpair : (e.1, e.2) ∈ m := by simpa using he
        rw [hek] at hpair
        have hg := mapGet_of_mem_of_nodup hm hpair
        rw [hk] at hg
        exact (Option.some.inj hg).symm
      by_cases hidle : fiveMinsInMs < now - v
      · by_cases hct : k ∈ ct
        · have hr1 : reapOne now ({ activeSessions := m, closeThrows := ct }, log) k
              = ({ activeSessions := m, closeThrows := ct },
                log ++ ["Error force closing inactive session " ++ k]) := by
            simp only [reapOne, getLastActivityTime, closeSession, hk, Option.getD_some]
            rw [if_pos hidle, if_pos hct]
          rw [hr1, ih m _ hksn hm]
          congr 1
          refine List.filter_congr ?_
          intro e he
          by_cases hek : e.1 = k
          · have he2 : e.2 = v := hval e he hek
            simp [List.mem_cons, hek, he2, hidle, hct, hknotin]
          · simp [List.mem_cons, hek]
        · have hr1 : reapOne now ({ activeSessions := m, closeThrows := ct }, log) k
              = ({ activeSessions := mapDelete k m, closeThrows := ct }, log) := by
            simp only [reapOne, getLastActivityTime, closeSession, hk, Option.getD_some]
            rw [if_pos hidle, if_neg hct]
          have hmd : ((mapDelete k m).map Prod.fst).Nodup := by
            rw [mapDelete_eq_filter]
            exact hm.sublist ((List.filter_sublist m).map Prod.fst)
          rw [hr1, ih (mapDelete k m) log hksn hmd]
          congr 1
          rw [mapDelete_eq_filter, List.filter_filter]
          refine List.filter_congr ?_
          intro e he
          by_cases hek : e.1 = k
          · have he2 : e.2 = v := hval e he hek
            simp [List.mem_cons, hek, he2, hidle, hct]
          · simp [List.mem_cons, hek]
      · have hr1 : reapOne now ({ activeSessions := m, closeThrows := ct }, log) k
            = ({ activeSessions := m, closeThrows := ct }, log) := by
          simp only [reapOne, getLastActivityTime, hk, Option.getD_some]
          rw [if_neg hidle]
        rw [hr1, ih m log hksn hm]
        congr 1
        refine List.filter_congr ?_
        intro e he
        by_cases hek : e.1 = k
        · have he2 : e.2 = v := hval e he hek
          simp [List.mem_cons, hek, he2, hidle, hknotin]
        · simp [List.mem_cons, hek]

/-- Claim C5 (amended): on each tick every session idle for more than
five minutes is force-closed and removed from the bedrock client's
session registry, regardless of attached clients; a close failure is
caught, leaves that one session registered, and does not prevent reaping
the remaining sessions in the same pass — but the channel still appears
in the /channels snapshot afterwards (with active = false), because the
reaper does not touch the channelClients map that the snapshot lists. -/
theorem claim_C5_amended_reaper (now : Nat) (bs : BedrockState)
    (hnd : (bs.activeSessions.map Prod.fst).Nodup) :
    (reaperTick now bs).1.activeSessions
        = bs.activeSessions.filter
            (fun e => !(decide (fiveMinsInMs < now - e.2)
              && !(decide (e.1 ∈ bs.closeThrows))))
      ∧ (reaperTick now bs).1.closeThrows = bs.closeThrows
      ∧ (∀ sid lastA, (sid, lastA) ∈ bs.activeSessions →
          fiveMinsInMs < now - lastA → sid ∉ bs.closeThrows →
          isSessionActive (reaperTick now bs).1 sid = false)
      ∧ (∀ sid lastA, (sid, lastA) ∈ bs.activeSessions →
          ¬ fiveMinsInMs < now - lastA →
          (sid, lastA) ∈ (reaperTick now bs).1.activeSessions)
      ∧ ∀ channelClients : List (String × List Nat),
          (channelsSnapshot channelClients (reaperTick now bs).1).map Prod.fst
            = channelClients.map Prod.fst := by
  have hks : (getActiveSessions bs).Nodup := hnd
  have hmain := reapOne_foldl now bs.closeThrows (getActiveSessions bs)
    bs.activeSessions [] hks hnd
  have hres : (reaperTick now bs).1
      = { activeSessions :=
            bs.activeSessions.filter (fun e =>
              !(decide (e.1 ∈ getActiveSessions bs) && decide (fiveMinsInMs < now - e.2)
                && !(decide (e.1 ∈ bs.closeThrows)))),
          closeThrows := bs.closeThrows } := hmain
  have hdrop : bs.activeSessions.filter (fun e =>
        !(decide (e.1 ∈ getActiveSessions bs) && decide (fiveMinsInMs < now - e.2)
          && !(decide (e.1 ∈ bs.closeThrows))))
      = bs.activeSessions.filter (fun e =>
          !(decide (fiveMinsInMs < now - e.2) && !(decide (e.1 ∈ bs.closeThrows)))) := by
    refine List.filter_congr ?_
    intro e he
    have hmem : e.1 ∈ getActiveSessions bs := List.mem_map.mpr ⟨e, he, rfl⟩
    simp [hmem]
  have hact : (reaperTick now bs).1.activeSessions
      = bs.activeSessions.filter (fun e =>
          !(decide (fiveMinsInMs < now - e.2) && !(decide (e.1 ∈ bs.closeThrows)))) := by
    rw [hres]
    exact hdrop
  refine ⟨hact, by rw [hres], ?_, ?_, ?_⟩
  · intro sid lastA hmem hidle hct
    have hnone : mapGet sid (reaperTick now bs).1.activeSessions = none := by
      rw [hact]
      refine mapGet_none_iff.mpr ?_
      intro e he
      intro hek
      rcases List.mem_filter.mp he with ⟨hem, hcond⟩
      have hpair : (e.1, e.2) ∈ bs.activeSessions := by simpa using hem
      rw [hek] at hpair
      have h1 := mapGet_of_mem_of_nodup hnd hpair
      have h2 := mapGet_of_mem_of_nodup hnd hmem
      rw [h1] at h2
      have he2 : e.2 = lastA := Option.some.inj h2
      rw [he2] at hcond
      simp [hidle] at hcond
      exact hct (hek ▸ hcond)
    rw [isSessionActive, hnone]
    rfl
  · intro sid lastA hmem hidle
    rw [hact]
    refine List.mem_filter.mpr ⟨hmem, ?_⟩
    simp [hidle]
  · intro channelClients
    simp [channelsSnapshot, List.map_map, Function.comp]

/-- Witness for the amended claim C5: session good is reaped even though
the close of session bad (also idle, earlier in the same pass) throws. -/
theorem claim_C5_witness :
    isSessionActive
        (reaperTick 300001
          { activeSessions := [("bad", 0), ("good", 0)], closeThrows := ["bad"] }).1
        "good" = false :=
  (claim_C5_amended_reaper 300001
      { activeSessions := [("bad", 0), ("good", 0)], closeThrows := ["bad"] }
      (by decide)).2.2.1 "good" 0 (by decide) (by decide) (by decide)

/-! ## Interleaved joins (claim C1) -/

theorem nth_mem {l : List α} {i : Nat} {a : α} (h : nth l i = some a) : a ∈ l := by
  induction l generalizing i with
  | nil => cases h
  | cons b rest ih =>
    cases i with
    | zero =>
      simp [nth] at h
      rw [← h]
      exact List.mem_cons_self _ _
    | succ m => exact List.mem_cons_of_mem _ (ih h)

theorem nth_some_of_lt {l : List α} {i : Nat} (h : i < l.length) :
    ∃ a, nth l i = some a := by
  induction l generalizing i with
  | nil => simp at h
  | cons b rest ih =>
    cases i with
    | zero => exact ⟨b, rfl⟩
    | succ m => exact ih (Nat.lt_of_succ_lt_succ h)

theorem length_updateNth (l : List α) (i : Nat) (b : α) :
    (updateNth l i b).length = l.length := by
  induction l generalizing i with
  | nil => rfl
  | cons a rest ih =>
    cases i with
    | zero => rfl
    | succ m => simp [updateNth, ih]

theorem nth_updateNth_self {l : List α} {i : Nat} {a : α} (b : α)
    (h : nth l i = some a) : nth (updateNth l i b) i = some b := by
  induction l generalizing i with
  | nil => cases h
  | cons c rest ih =>
    cases i with
    | zero => rfl
    | succ m => exact ih h

theorem nth_updateNth_ne (l : List α) (i j : Nat) (b : α) (h : i ≠ j) :
    nth (updateNth l i b) j = nth l j := by
  induction l generalizing i j with
  | nil => rfl
  | cons c rest ih =>
    cases i with
    | zero =>
      cases j with
      | zero => exact absurd rfl h
      | succ m => rfl
    | succ m =>
      cases j with
      | zero => rfl
      | succ k =>
        exact ih m k (fun hc => h (congrArg Nat.succ hc))

theorem mem_updateNth {l : List α} {i : Nat} {b x : α}
    (h : x ∈ updateNth l i b) : x ∈ l ∨ x = b := by
  induction l generalizing i with
  | nil => cases h
  | cons c rest ih =>
    cases i with
    | zero =>
      rcases List.mem_cons.mp h with h | h
      · right; exact h
      · left; exact List.mem_cons_of_mem _ h
    | succ m =>
      rcases List.mem_cons.mp h with h | h
      · left; rw [h]; exact List.mem_cons_self _ _
      · rcases ih h with h | h
        · left; exact List.mem_cons_of_mem _ h
        · right; exact h

theorem countDone_cons (t : JoinTask) (ts : List JoinTask) :
    countDone (t :: ts)
      = (if t.phase = JoinPhase.done then 1 else 0) + countDone ts := by
  by_cases h : t.phase = JoinPhase.done <;>
    simp [countDone, List.filter_cons, h, Nat.add_comm]

theorem countDone_update_stay {ts : List JoinTask} {i : Nat} {t t' : JoinTask}
    (h : nth ts i = some t) (h2 : t.phase ≠ JoinPhase.done)
    (h3 : t'.phase ≠ JoinPhase.done) :
    countDone (updateNth ts i t') = countDone ts := by
  induction ts generalizing i with
  | nil => cases h
  | cons a rest ih =>
    cases i with
    | zero =>
      simp [nth] at h
      rw [← h] at h2
      simp [updateNth, countDone_cons, h2, h3]
    | succ m =>
      simp only [updateNth, countDone_cons]
      rw [ih h]

theorem countDone_update_finish {ts : List JoinTask} {i : Nat} {t t' : JoinTask}
    (h : nth ts i = some t) (h2 : t.phase ≠ JoinPhase.done)
    (h3 : t'.phase = JoinPhase.done) :
    countDone (updateNth ts i t') = countDone ts + 1 := by
  induction ts generalizing i with
  | nil => cases h
  | cons a rest ih =>
    cases i with
    | zero =>
      simp [nth] at h
      rw [← h] at h2
      simp [updateNth, countDone_cons, h2, h3]
      omega
    | succ m =>
      simp only [updateNth, countDone_cons]
      rw [ih h]
      omega

theorem countDone_of_all_done {ts : List JoinTask}
    (h : ∀ t ∈ ts, t.phase = JoinPhase.done) : countDone ts = ts.length := by
  induction ts with
  | nil => rfl
  | cons t rest ih =>
    rw [countDone_cons, if_pos (h t (List.mem_cons_self _ _)),
      ih (fun x hx => h x (List.mem_cons_of_mem _ hx)), List.length_cons]
    omega

theorem countDone_eq_zero {ts : List JoinTask}
    (h : ∀ t ∈ ts, t.phase ≠ JoinPhase.done) : countDone ts = 0 := by
  induction ts with
  | nil => rfl
  | cons t rest ih =>
    rw [countDone_cons, if_neg (h t (List.mem_cons_self _ _)),
      ih (fun x hx => h x (List.mem_cons_of_mem _ hx))]

/-- Attaching a not-yet-done joiner to a ready channel preserves
JoinReady. -/
theorem JoinReady_attach {c : String} {e : JoinExec} {i : Nat} {t : JoinTask}
    (hof : nth e.tasks i = some t) (htc : t.channelId = c)
    (hnd : t.phase ≠ JoinPhase.done) (hB : JoinReady c e) :
    JoinReady c
      { st := attachAndNotify e.st i t.channelId,
        tasks := updateNth e.tasks i { t with phase := JoinPhase.done } } := by
  obtain ⟨hstr, hnext, hhs, ⟨att, hcc, hdone⟩, hcount, hrc⟩ := hB
  refine ⟨?_, hnext, hhs, ⟨att ++ [i], ?_, ?_⟩, ?_, ?_⟩
  · simpa [attachAndNotify, attachClient] using hstr
  · simp [attachAndNotify, attachClient, hcc, htc, mapGet, mapSet]
  · intro j t' hj hd
    by_cases hij : i = j
    · subst hij
      exact List.mem_append_right _ (List.mem_singleton.mpr rfl)
    · rw [nth_updateNth_ne _ _ _ _ hij] at hj
      exact List.mem_append_left _ (hdone j t' hj hd)
  · simp only [attachAndNotify, List.length_append, List.length_cons, List.length_nil]
    rw [hcount, countDone_update_finish hof hnd rfl]
  · intro p hp
    simp only [attachAndNotify, List.mem_append, List.mem_singleton] at hp
    rcases hp with hp | hp
    · exact hrc p hp
    · rw [hp]
      exact htc

/-- One scheduler step preserves the invariant. -/
theorem JoinInv_step {c : String} {n : Nat} {e : JoinExec} (i : Nat)
    (h : JoinInv c n e) : JoinInv c n (stepTask e i) := by
  obtain ⟨hlen, hcid, hdisj⟩ := h
  cases hof : nth e.tasks i with
  | none =>
    have hst : stepTask e i = e := by simp [stepTask, hof]
    rw [hst]
    exact ⟨hlen, hcid, hdisj⟩
  | some t =>
    have htc : t.channelId = c := hcid t (nth_mem hof)
    have hlenU : ∀ t' : JoinTask, (updateNth e.tasks i t').length = n := by
      intro t'
      rw [length_updateNth]
      exact hlen
    have hcidU : ∀ t' : JoinTask, t'.channelId = c →
        ∀ x ∈ updateNth e.tasks i t', x.channelId = c := by
      intro t' ht' x hx
      rcases mem_updateNth hx with hx | hx
      · exact hcid x hx
      · rw [hx]; exact ht'
    cases hph : t.phase with
    | done =>
      have hst : stepTask e i = e := by simp [stepTask, hof, hph]
      rw [hst]
      exact ⟨hlen, hcid, hdisj⟩
    | start =>
      rcases hdisj with hA | hB
      · obtain ⟨hstr, hcc, hnext, hhs, hready, hall⟩ := hA
        have hget : mapGet t.channelId e.st.maps.channelStreams = none := by
          rw [hstr]; rfl
        have hst : stepTask e i
            = { st :=
                  { maps :=
                      { channelStreams :=
                          mapSet t.channelId e.st.nextSession e.st.maps.channelStreams,
                        channelClients := mapSet t.channelId [] e.st.maps.channelClients,
                        clientChannels := e.st.maps.clientChannels },
                    nextSession := e.st.nextSession + 1,
                    handshakesStarted := e.st.handshakesStarted + 1,
                    sessionReadySent := e.st.sessionReadySent },
                tasks := updateNth e.tasks i { t with phase := JoinPhase.awaitPromptStart } } := by
          simp [stepTask, hof, hph, hget]
        rw [hst]
        refine ⟨hlenU _, hcidU _ htc, Or.inr ⟨?_, ?_, ?_, ⟨[], ?_, ?_⟩, ?_, ?_⟩⟩
        · rw [htc] at hget ⊢
          rw [hstr, hnext]
          simp [mapSet]
        · rw [hnext]
        · rw [hhs]
        · rw [htc, hcc]
          simp [mapSet]
        · intro j t' hj hd
          exfalso
          by_cases hij : i = j
          · subst hij
            rw [nth_updateNth_self _ hof] at hj
            injection hj with hj
            rw [← hj] at hd
            exact JoinPhase.noConfusion hd
          · rw [nth_updateNth_ne _ _ _ _ hij] at hj
            have := hall t' (nth_mem hj)
            rw [this] at hd
            exact JoinPhase.noConfusion hd
        · rw [hready]
          refine (countDone_eq_zero ?_).symm
          intro x hx
          rcases mem_updateNth hx with hx | hx
          · rw [hall x hx]
            exact fun hc => JoinPhase.noConfusion hc
          · rw [hx]
            exact fun hc => JoinPhase.noConfusion hc
        · intro p hp
          rw [hready] at hp
          cases hp
      · have hnd : t.phase ≠ JoinPhase.done := by
          rw [hph]
          exact fun hc => JoinPhase.noConfusion hc
        have hget : mapGet t.channelId e.st.maps.channelStreams = some 0 := by
          rw [hB.1, htc]
          simp [mapGet]
        have hst : stepTask e i
            = { st := attachAndNotify e.st i t.channelId,
                tasks := updateNth e.tasks i { t with phase := JoinPhase.done } } := by
          simp [stepTask, hof, hph, hget]
        rw [hst]
        exact ⟨hlenU _, hcidU _ htc, Or.inr (JoinReady_attach hof htc hnd hB)⟩
    | awaitPromptStart =>
      rcases hdisj with hA | hB
      · have hstart := hA.2.2.2.2.2 t (nth_mem hof)
        rw [hph] at hstart
        exact absurd hstart (fun hc => JoinPhase.noConfusion hc)
      · obtain ⟨hstr, hnext, hhs, ⟨att, hcc, hdone⟩, hcount, hrc⟩ := hB
        have hst : stepTask e i
            = { st := e.st,
                tasks := updateNth e.tasks i { t with phase := JoinPhase.awaitSystemPrompt } } := by
          simp [stepTask, hof, hph]
        rw [hst]
        refine ⟨hlenU _, hcidU _ htc, Or.inr ⟨hstr, hnext, hhs, ⟨att, hcc, ?_⟩, ?_, hrc⟩⟩
        · intro j t' hj hd
          by_cases hij : i = j
          · subst hij
            rw [nth_updateNth_self _ hof] at hj
            injection hj with hj
            rw [← hj] at hd
            exact absurd hd (fun hc => JoinPhase.noConfusion hc)
          · rw [nth_updateNth_ne _ _ _ _ hij] at hj
            exact hdone j t' hj hd
        · rw [hcount]
          exact (countDone_update_stay hof
            (by rw [hph]; exact fun hc => JoinPhase.noConfusion hc)
            (fun hc => JoinPhase.noConfusion hc)).symm
    | awaitSystemPrompt =>
      rcases hdisj with hA | hB
      · have hstart := hA.2.2.2.2.2 t (nth_mem hof)
        rw [hph] at hstart
        exact absurd hstart (fun hc => JoinPhase.noConfusion hc)
      · obtain ⟨hstr, hnext, hhs, ⟨att, hcc, hdone⟩, hcount, hrc⟩ := hB
        have hst : stepTask e i
            = { st := e.st,
                tasks := updateNth e.tasks i { t with phase := JoinPhase.awaitStartAudio } } := by
          simp [stepTask, hof, hph]
        rw [hst]
        refine ⟨hlenU _, hcidU _ htc, Or.inr ⟨hstr, hnext, hhs, ⟨att, hcc, ?_⟩, ?_, hrc⟩⟩
        · intro j t' hj hd
          by_cases hij : i = j
          · subst hij
            rw [nth_updateNth_self _ hof] at hj
            injection hj with hj
            rw [← hj] at hd
            exact absurd hd (fun hc => JoinPhase.noConfusion hc)
          · rw [nth_updateNth_ne _ _ _ _ hij] at hj
            exact hdone j t' hj hd
        · rw [hcount]
          exact (countDone_update_stay hof
            (by rw [hph]; exact fun hc => JoinPhase.noConfusion hc)
            (fun hc => JoinPhase.noConfusion hc)).symm
    | awaitStartAudio =>
      rcases hdisj with hA | hB
      · have hstart := hA.2.2.2.2.2 t (nth_mem hof)
        rw [hph] at hstart
        exact absurd hstart (fun hc => JoinPhase.noConfusion hc)
      · have hnd : t.phase ≠ JoinPhase.done := by
          rw [hph]
          exact fun hc => JoinPhase.noConfusion hc
        have hst : stepTask e i
            = { st := attachAndNotify e.st i t.channelId,
                tasks := updateNth e.tasks i { t with phase := JoinPhase.done } } := by
          simp [stepTask, hof, hph]
        rw [hst]
        exact ⟨hlenU _, hcidU _ htc, Or.inr (JoinReady_attach hof htc hnd hB)⟩

theorem JoinInv_run {c : String} {n : Nat} (schedule : List Nat) {e : JoinExec}
    (h : JoinInv c n e) : JoinInv c n (runSchedule schedule e) := by
  induction schedule generalizing e with
  | nil => exact h
  | cons i rest ih => exact ih (JoinInv_step i h)

theorem JoinInv_init (c : String) (n : Nat) : JoinInv c n (initJoinExec c n) := by
  refine ⟨?_, ?_, Or.inl ⟨rfl, rfl, rfl, rfl, rfl, ?_⟩⟩
  · simp [initJoinExec]
  · intro t ht
    simp only [initJoinExec] at ht
    rw [List.eq_of_mem_replicate ht]
  · intro t ht
    simp only [initJoinExec] at ht
    rw [List.eq_of_mem_replicate ht]

/-- Claim C1: for any interleaving under which all n joiners of the same
unseen channel id complete, exactly one handshake executed, exactly one
channelStreams entry was created (holding the single session 0), every
joiner got exactly one sessionReady naming the same resolved channel id,
and every joiner ended up in the one channel's client set. -/
theorem claim_C1_single_upstream_session (c : String) (n : Nat) (schedule : List Nat)
    (hn : 1 ≤ n)
    (hdone : ∀ t ∈ (runSchedule schedule (initJoinExec c n)).tasks,
        t.phase = JoinPhase.done) :
    (runSchedule schedule (initJoinExec c n)).st.handshakesStarted = 1
      ∧ (runSchedule schedule (initJoinExec c n)).st.maps.channelStreams = [(c, 0)]
      ∧ (runSchedule schedule (initJoinExec c n)).st.sessionReadySent.length = n
      ∧ (∀ p ∈ (runSchedule schedule (initJoinExec c n)).st.sessionReadySent, p.2 = c)
      ∧ ∃ att,
          (runSchedule schedule (initJoinExec c n)).st.maps.channelClients = [(c, att)]
            ∧ ∀ i, i < n → i ∈ att := by
  obtain ⟨hlen, hcid, hdisj⟩ := JoinInv_run schedule (JoinInv_init c n)
  rcases hdisj with hA | hB
  · exfalso
    obtain ⟨t0, ht0⟩ := nth_some_of_lt
      (show 0 < (runSchedule schedule (initJoinExec c n)).tasks.length by
        rw [hlen]; omega)
    have h1 := hA.2.2.2.2.2 t0 (nth_mem ht0)
    have h2 := hdone t0 (nth_mem ht0)
    rw [h1] at h2
    exact JoinPhase.noConfusion h2
  · obtain ⟨hstr, hnext, hhs, ⟨att, hcc, hmem⟩, hcount, hrc⟩ := hB
    refine ⟨hhs, hstr, ?_, hrc, ⟨att, hcc, ?_⟩⟩
    · rw [hcount, countDone_of_all_done hdone, hlen]
    · intro i hi
      obtain ⟨t', ht'⟩ := nth_some_of_lt
        (show i < (runSchedule schedule (initJoinExec c n)).tasks.length by
          rw [hlen]; exact hi)
      exact hmem i t' ht' (hdone t' (nth_mem ht'))

/-- Witness for claim C1: three concurrent joiners of channel room, the
second and third arriving while the first is mid-handshake. -/
theorem claim_C1_witness :
    (runSchedule [0, 1, 0, 2, 0, 0] (initJoinExec "room" 3)).st.handshakesStarted = 1
      ∧ (runSchedule [0, 1, 0, 2, 0, 0] (initJoinExec "room" 3)).st.maps.channelStreams
          = [("room", 0)]
      ∧ (runSchedule [0, 1, 0, 2, 0, 0] (initJoinExec "room" 3)).st.sessionReadySent.length
          = 3
      ∧ (∀ p ∈ (runSchedule [0, 1, 0, 2, 0, 0] (initJoinExec "room" 3)).st.sessionReadySent,
          p.2 = "room")
      ∧ ∃ att,
          (runSchedule [0, 1, 0, 2, 0, 0] (initJoinExec "room" 3)).st.maps.channelClients
              = [("room", att)]
            ∧ ∀ i, i < 3 → i ∈ att :=
  claim_C1_single_upstream_session "room" 3 [0, 1, 0, 2, 0, 0] (by decide) (by decide)

end SonicServer
